import Mathlib

/-!
Verification development for the MkDocs navigation-synthesis script
`docs/scripts/gen_mkdocs_yml.py`.

The Python source is shallowly embedded below: each Lean definition mirrors
one function (or a contiguous block) of the script, translated statement by
statement.  File-system interaction is abstracted by passing the data the
script would read (template text, destination text, the scanned candidate
list) as explicit arguments; a possible mid-write interruption is modelled
by an optional character count after which the write stops.
-/

set_option maxRecDepth 100000

namespace GenMkdocs

/-! ## Python string primitives

Character-level models of the `str` operations the script uses
(`replace`, `in`, `split('\n')`, `strip`, `title`, `lower`).  They are
written as plain structural recursions so that concrete runs reduce
inside the kernel. -/

/-- Whitespace set of Python's `str.strip` / regex `\s` (ASCII range). -/
def isPyWs (c : Char) : Bool :=
  c == ' ' || c == '\t' || c == '\n' || c == '\r' || c == '\x0b' || c == '\x0c'

/-- Left-to-right, non-overlapping replacement of `pat` by `rep`, as
Python `str.replace` does for a non-empty pattern.  The first argument
is fuel bounding the number of characters still to scan (structural
recursion on it keeps the definition kernel-reducible); it is called
with the input length, which suffices since every step consumes at
least one character. -/
def replaceChars (pat rep : List Char) : Nat → List Char → List Char
  | _, [] => []
  | 0, l => l
  | fuel + 1, c :: rest =>
    if pat ≠ [] ∧ pat.isPrefixOf (c :: rest) then
      rep ++ replaceChars pat rep fuel ((c :: rest).drop pat.length)
    else
      c :: replaceChars pat rep fuel rest

/-- Python `s.replace(pat, rep)` (callers in the script always pass a
non-empty pattern; the empty pattern is mapped to the identity). -/
def pyReplace (s pat rep : String) : String :=
  if pat.data = [] then s
  else String.mk (replaceChars pat.data rep.data s.data.length s.data)

/-- Python `pat in s` membership test on strings. -/
def containsChars (pat : List Char) : List Char → Bool
  | [] => pat.isEmpty
  | c :: rest => pat.isPrefixOf (c :: rest) || containsChars pat rest

/-- Python `pat in s` on `String`. -/
def pyContains (s pat : String) : Bool :=
  containsChars pat.data s.data

/-- Python `s.split('\n')` (single-character separator split). -/
def splitOnNl : List Char → List (List Char)
  | [] => [[]]
  | c :: rest =>
    let r := splitOnNl rest
    if c = '\n' then [] :: r
    else
      match r with
      | h :: t => (c :: h) :: t
      | [] => [[c]]

/-- Python `s.split('\n')` on `String`. -/
def pySplitLines (s : String) : List String :=
  (splitOnNl s.data).map String.mk

/-- Python `s.strip()`. -/
def pyStrip (s : String) : String :=
  String.mk (((s.data.dropWhile isPyWs).reverse.dropWhile isPyWs).reverse)

/-- Truthiness of `s.strip()` (the script only tests whether a stripped
line is non-empty). -/
def strippedNonEmpty (s : String) : Bool :=
  !(s.data.all isPyWs)

/-- Python `s.startswith(p)`. -/
def pyStartsWith (s p : String) : Bool :=
  p.data.isPrefixOf s.data

/-- Python `str.title()` for the ASCII names the script formats:
an alphabetic character is upper-cased after a non-cased character and
lower-cased otherwise. -/
def titleChars : Bool → List Char → List Char
  | _, [] => []
  | prevCased, c :: rest =>
    if c.isAlpha then
      (if prevCased then c.toLower else c.toUpper) :: titleChars true rest
    else
      c :: titleChars false rest

/-- Python `s.title()`. -/
def pyTitle (s : String) : String :=
  String.mk (titleChars false s.data)

/-- Python `s.lower()` (ASCII). -/
def pyLower (s : String) : String :=
  String.mk (s.data.map Char.toLower)

/-- Strict code-point comparison of character lists (Python `str <`). -/
def charsLt : List Char → List Char → Bool
  | [], [] => false
  | [], _ :: _ => true
  | _ :: _, [] => false
  | a :: as, b :: bs => if a < b then true else if a == b then charsLt as bs else false

/-- Python `<` on strings. -/
def strLt (a b : String) : Bool :=
  charsLt a.data b.data

/-- Python `<` on tuples of strings (lexicographic). -/
def listStrLt : List String → List String → Bool
  | [], [] => false
  | [], _ :: _ => true
  | _ :: _, [] => false
  | a :: as, b :: bs => if strLt a b then true else if a == b then listStrLt as bs else false

/-- Stable insertion of `x` after every element strictly smaller than it —
the auxiliary step of the stable sort below. -/
def insertSorted {α : Type} (lt : α → α → Bool) (x : α) : List α → List α
  | [] => [x]
  | y :: ys => if lt y x then y :: insertSorted lt x ys else x :: y :: ys

/-- Stable sort by a strict comparison, the behaviour of Python's
`sorted` (ties keep their original order; all keys sorted by the script
are distinct anyway). -/
def pySorted {α : Type} (lt : α → α → Bool) : List α → List α
  | [] => []
  | x :: xs => insertSorted lt x (pySorted lt xs)

/-! ## Data model

`NodesMap` is `DocumentationGenerator.package_nodes[package_name]`: an
insertion-ordered association from module-path part tuples to the
generated index-page path.  `NavItem` mirrors the single-key dictionaries
the script builds (`{label: path}` / `{label: [children...]}`), and
`GroupValue` the two shapes stored in `nav_structure[package][display_key]`
(a bare path string, or a list of items). -/

abbrev NodesMap := List (List String × String)

mutual

/-- One rendered navigation entry: `{label: path}` or `{label: [...]}`.
A group's children are a `NavForest` — a copy of `List NavItem` declared
mutually so that recursion over the nesting stays structural. -/
inductive NavItem where
  | leaf : String → String → NavItem
  | group : String → NavForest → NavItem

/-- A list of navigation entries (the value of a `{label: [...]}` item). -/
inductive NavForest where
  | nil : NavForest
  | cons : NavItem → NavForest → NavForest

end

/-- Build a `NavForest` from a plain list of items. -/
def forestOfList : List NavItem → NavForest
  | [] => NavForest.nil
  | x :: xs => NavForest.cons x (forestOfList xs)

/-- Value stored under one display key of a package's nav structure. -/
inductive GroupValue where
  | single : String → GroupValue
  | items : List NavItem → GroupValue

abbrev PackageStructure := List (String × GroupValue)

abbrev NavStructure := List (String × PackageStructure)

/-! ## Navigation tree builder

Embeds the group-building block of `_build_nav_structure_only`
(`gen_mkdocs_yml.py` lines 807-871; `process_package` lines 670-734 are
the same text). -/

/-- First-occurrence filtering against an accumulator of already seen
keys: the auxiliary walk behind `firstOccur`. -/
def firstOccurAux (seen : List (List String)) : List (List String) → List (List String)
  | [] => []
  | a :: rest =>
    if a ∈ seen then firstOccurAux seen rest
    else a :: firstOccurAux (a :: seen) rest

/-- `parts_tuple[:3]` keys in first-occurrence (dict-insertion) order:
the keys of the `groups` dictionary. -/
def firstOccur (l : List (List String)) : List (List String) :=
  firstOccurAux [] l

/-- Keys of the `groups` dict: first three parts of every node with at
least three parts, in insertion order (line 816-822). -/
def groupKeys (nodes : NodesMap) : List (List String) :=
  firstOccur (nodes.filterMap fun pt =>
    if 3 ≤ pt.1.length then some (pt.1.take 3) else none)

/-- `groups[key]['Index']`: the index path stored when the group is
created, i.e. the path of the first node (in insertion order) whose
parts have the given three-part key as prefix (lines 818-820). -/
def groupIndex (nodes : NodesMap) (key : List String) : Option String :=
  (nodes.find? fun pt => decide (3 ≤ pt.1.length) && pt.1.take 3 == key).map (·.2)

/-- `groups[key]['Index']` with the `Option` removed; every key returned
by `groupKeys` has an index. -/
def groupIndexD (nodes : NodesMap) (key : List String) : String :=
  (groupIndex nodes key).getD ""

/-- `child_index_map`: nodes with exactly four parts under the group key
(lines 837-840). -/
def childIndexMap (nodes : NodesMap) (key : List String) : NodesMap :=
  nodes.filter fun pt => pt.1.length == 4 && pt.1.take 3 == key

/-- `sorted(...)` over node entries by their part tuples. -/
def sortByParts (l : NodesMap) : NodesMap :=
  pySorted (fun a b => listStrLt a.1 b.1) l

/-- `has_deeper`: some node lies strictly below this child (line 848). -/
def hasDeeper (nodes : NodesMap) (child : List String) : Bool :=
  nodes.any fun pt => decide (4 < pt.1.length) && pt.1.take 4 == child

/-- `parts.getLastD ""`: the module name used as a display label. -/
def lastSeg (l : List String) : String :=
  l.getLastD ""

/-- The sorted five-part grandchildren rendered beneath a nested child
(lines 855-859). -/
def gcItems (nodes : NodesMap) (childParts : List String) : List NavItem :=
  (sortByParts (nodes.filter fun pt => pt.1.length == 5 && pt.1.take 4 == childParts)).map
    fun pt => NavItem.leaf (lastSeg pt.1) pt.2

/-- Rendering of one direct child: a plain link, or a collapsible child
with its own index first (lines 843-860). -/
def childEntry (nodes : NodesMap) (pt : List String × String) : NavItem :=
  if hasDeeper nodes pt.1 then
    NavItem.group (lastSeg pt.1)
      (forestOfList (NavItem.leaf (lastSeg pt.1) pt.2 :: gcItems nodes pt.1))
  else
    NavItem.leaf (lastSeg pt.1) pt.2

/-- `group_items` for one group key: the index entry labelled with the
key's last segment, then the sorted direct children (lines 830-860). -/
def groupItems (nodes : NodesMap) (key : List String) : List NavItem :=
  NavItem.leaf (lastSeg key) (groupIndexD nodes key)
    :: (sortByParts (childIndexMap nodes key)).map (childEntry nodes)

/-- The per-package structure built by `_build_nav_structure_only`
(lines 813-869), including the single-entry policy (lines 862-869). -/
def buildNavStructureOnly (nodes : NodesMap) (single_entry_as_group : Bool) : PackageStructure :=
  (groupKeys nodes).map fun key =>
    let items := groupItems nodes key
    (String.intercalate "." key,
      if items.length == 1 then
        if single_entry_as_group then GroupValue.items items
        else GroupValue.single (groupIndexD nodes key)
      else GroupValue.items items)

/-! ## Rendering (`SafeMkDocsConfigUpdater`)

`_format_display_name`, `_build_nav_structure`, `_build_api_reference_nav`,
`_nav_to_yaml_string` and `_generate_api_reference_content`
(`gen_mkdocs_yml.py` lines 308-435). -/

/-- The acronym-correction table of `_format_display_name`
(lines 340-344), applied in insertion order. -/
def acronymTable : List (String × String) :=
  [("Llm", "LLM"), ("Api", "API"), ("Ai", "AI"), ("Http", "HTTP"),
   ("Json", "JSON"), ("Xml", "XML"), ("Url", "URL"), ("Uri", "URI"),
   ("Uuid", "UUID"), ("Id", "ID")]

/-- `_format_display_name` (lines 335-349): underscore → space, `title()`,
then the sequential acronym replacements. -/
def formatDisplayName (name : String) : String :=
  acronymTable.foldl (fun acc p => pyReplace acc p.1 p.2) (pyTitle (pyReplace name "_" " "))

/-- `'.' in key` test used to keep dotted module paths verbatim. -/
def hasDot (s : String) : Bool :=
  s.data.any (· == '.')

/-- `_build_nav_structure` (lines 319-333) applied to one package's
structure: the values are lists or strings (never dicts), so every entry
takes the `else` branch; items are emitted in sorted key order. -/
def buildNavStructure (pkgStruct : PackageStructure) : List NavItem :=
  (pySorted (fun a b => strLt a.1 b.1) pkgStruct).map fun kv =>
    let formattedName := if hasDot kv.1 then kv.1 else formatDisplayName kv.1
    match kv.2 with
    | GroupValue.items xs => NavItem.group formattedName (forestOfList xs)
    | GroupValue.single p => NavItem.leaf formattedName p

/-- `_build_api_reference_nav` (lines 308-317): one `{formatted package
name: package nav list}` entry per package, in insertion order. -/
def buildApiReferenceNav (nav : NavStructure) : List (String × List NavItem) :=
  nav.map fun pkg => (formatDisplayName pkg.1, buildNavStructure pkg.2)

/-- `" " * indent`. -/
def mkIndent (n : Nat) : String :=
  String.mk (List.replicate n ' ')

mutual

/-- Lines contributed by one item in `_nav_to_yaml_string` (lines 356-371):
a leaf is `- key: value`; a group is `- key:` followed by the non-blank
lines of the recursively rendered children. -/
def navItemLines (indent : Nat) : NavItem → List String
  | .leaf k v => [mkIndent indent ++ "- " ++ k ++ ": " ++ v]
  | .group k children =>
    let sub := String.intercalate "\n" (navForestLines (indent + 2) children)
    (mkIndent indent ++ "- " ++ k ++ ":")
      :: (if sub.isEmpty then [] else (pySplitLines sub).filter strippedNonEmpty)

/-- The flattened lines of a list of items. -/
def navForestLines (indent : Nat) : NavForest → List String
  | .nil => []
  | .cons x xs => navItemLines indent x ++ navForestLines indent xs

end

/-- `_nav_to_yaml_string` (lines 351-373): newline-joined lines of the
item list. -/
def navToYamlString (l : List NavItem) (indent : Nat) : String :=
  String.intercalate "\n" (navForestLines indent (forestOfList l))

/-- `LLM_OVERVIEW_PATH` (line 25). -/
def LLM_OVERVIEW_PATH : String := "extras/llms/index.md"

/-- The lines `_generate_api_reference_content` emits for the
`bridgic-core` package, if one is present (lines 388-403). -/
def coreLines (nav : NavStructure) : List String :=
  match nav.filter (fun p => pyLower p.1 == "bridgic-core") with
  | [] => []
  | core :: _ =>
    (buildApiReferenceNav [core]).flatMap fun kv =>
      ("    - " ++ formatDisplayName kv.1 ++ ":")
        :: (let sub := navToYamlString kv.2 6
            if sub.isEmpty then [] else (pySplitLines sub).filter strippedNonEmpty)

/-- The `(dotted, index_path)` pairs derived for `bridgic-llms-*`
packages (lines 407-418). -/
def integrationEntries (nav : NavStructure) : List (String × String) :=
  nav.filterMap fun p =>
    if pyStartsWith p.1 "bridgic-llms-" then
      let dottedSuffix := pyReplace (pyReplace p.1 "bridgic-llms-" "") "-" "_"
      some ("bridgic.llms." ++ dottedSuffix,
        "reference/" ++ p.1 ++ "/bridgic/llms/" ++ dottedSuffix ++ "/index.md")
    else none

/-- `_generate_api_reference_content` (lines 375-435): the hard-wired
layout of a `Bridgic-Core` section (full structure) plus a synthesized
`Bridgic-Integration > llms` section; all other packages are ignored. -/
def generateApiReferenceContent (nav : NavStructure) : String :=
  let ints := integrationEntries nav
  let intLines :=
    if ints.isEmpty then []
    else
      "    - Bridgic-Integration:" :: "      - llms:"
        :: ("        - llms: " ++ LLM_OVERVIEW_PATH)
        :: ints.map fun e => "        - " ++ e.1 ++ ": " ++ e.2
  String.intercalate "\n" (coreLines nav ++ intLines)

/-! ## Template merge (`update_mkdocs_config`, lines 163-200) -/

/-- The template placeholder token `\x7b\x7bAPI_REFERENCE_CONTENT\x7d\x7d`. -/
def PLACEHOLDER : String :=
  "\x7b\x7bAPI_REFERENCE_CONTENT\x7d\x7d"

/-- `update_mkdocs_config` as a function from the template text (`none`
when the template file does not exist) and the navigation structure to
the text written to `mkdocs.yml` (`none` when the operation fails before
writing).  Lines 166-194 of the source. -/
def updateMkdocsConfig (template : Option String) (nav : NavStructure) : Option String :=
  match template with
  | none => none
  | some t =>
    if pyContains t PLACEHOLDER then
      some (pyReplace t PLACEHOLDER (generateApiReferenceContent nav))
    else none

/-- One merge run against a destination file: on success the destination
holds the generated text, on failure it is left as it was (the source
returns `False` before any write in both failure branches). -/
def mergeEngineRun (template : Option String) (nav : NavStructure) (dest : String) :
    String × Bool :=
  match updateMkdocsConfig template nav with
  | some out => (out, true)
  | none => (dest, false)

/-- The same run with the write step modelled explicitly: the source
opens `mkdocs.yml` with mode `'w'` (truncating it) and writes the full
text (lines 190-191); `interrupt = some n` models a write error after
`n` characters, leaving the truncated prefix in place. -/
def mergeEngineRunWithWrite (template : Option String) (nav : NavStructure)
    (dest : String) (interrupt : Option Nat) : String × Bool :=
  match updateMkdocsConfig template nav with
  | none => (dest, false)
  | some out =>
    match interrupt with
    | none => (out, true)
    | some n => (String.mk (out.data.take n), false)

/-! ## Legacy region-staging (`_update_mkdocs_config_legacy`, lines 202-306)

The regex work of the legacy path is embedded at the character level.
`re.search(r'^nav:\s*$', c, re.MULTILINE)` returns the leftmost line
start carrying `nav:`, with the greedy `\s*` backtracking to the largest
end position that sits at a newline or at the end of the text.
`re.search(r'^\n([a-z_]+:)', c, re.MULTILINE)` returns the first newline
character that itself starts a line and is followed by a `[a-z_]+:`
key. -/

/-- Position `i` starts a line (start of text or preceded by `'\n'`). -/
def isLineStart (cs : List Char) (i : Nat) : Bool :=
  i == 0 || (cs.get? (i - 1) == some '\n')

/-- The literal `pat` occurs at position `i`. -/
def matchesStrAt (cs : List Char) (i : Nat) (pat : List Char) : Bool :=
  pat.isPrefixOf (cs.drop i)

/-- Regex `$` in multiline mode: end of text or just before `'\n'`. -/
def dollarOk (cs : List Char) (j : Nat) : Bool :=
  j == cs.length || (cs.get? j == some '\n')

/-- Length of the whitespace run starting at `i`. -/
def wsRunLen (cs : List Char) (i : Nat) : Nat :=
  ((cs.drop i).takeWhile isPyWs).length

/-- End position of the `\s*$` tail starting at `i`: the largest
whitespace-consuming end satisfying `$` (greedy match with
backtracking), if any. -/
def navMatchEndAt (cs : List Char) (i : Nat) : Option Nat :=
  (List.range (wsRunLen cs i + 1)).reverse.findSome? fun d =>
    if dollarOk cs (i + d) then some (i + d) else none

/-- `re.search(r'^nav:\s*$', …, re.MULTILINE)`: start and end positions
of the leftmost match (lines 213-214). -/
def findNavMatch (cs : List Char) : Option (Nat × Nat) :=
  (List.range (cs.length + 1)).findSome? fun i =>
    if isLineStart cs i && matchesStrAt cs i "nav:".data then
      (navMatchEndAt cs (i + 4)).map fun j => (i, j)
    else none

/-- `[a-z_]` character class. -/
def isLowerUnd (c : Char) : Bool :=
  ('a' ≤ c && c ≤ 'z') || c == '_'

/-- `re.search(r'^\n([a-z_]+:)', …, re.MULTILINE)`: position of the
matched newline (lines 227-228). -/
def nextConfigMatch (cs : List Char) : Option Nat :=
  (List.range cs.length).findSome? fun p =>
    if isLineStart cs p && (cs.get? p == some '\n') then
      let word := (cs.drop (p + 1)).takeWhile isLowerUnd
      if decide (1 ≤ word.length) && (cs.get? (p + 1 + word.length) == some ':') then
        some p
      else none
    else none

/-- The skip-state machine of `_rebuild_nav_content` (lines 268-283):
drop an existing `- API Reference:` block, resuming at the next
two-space-indented item. -/
def filterApiRef : Bool → List String → List String
  | _, [] => []
  | skip, line :: rest =>
    if pyStartsWith (pyStrip line) "- API Reference:" then
      filterApiRef true rest
    else if skip then
      if pyStartsWith line "  - " && !pyStartsWith line "    " then
        line :: filterApiRef false rest
      else
        filterApiRef true rest
    else
      line :: filterApiRef false rest

/-- `list.insert` twice: place the new section and a blank separator
before index `i` (lines 298-299). -/
def insertBefore (i : Nat) (xs newLines : List String) : List String :=
  xs.take i ++ newLines ++ xs.drop i

/-- The API-reference nav as the heterogeneous list `_rebuild_nav_content`
renders (each entry `{package: list}`). -/
def apiNavItems (nav : NavStructure) : List NavItem :=
  (buildApiReferenceNav nav).map fun kv => NavItem.group kv.1 (forestOfList kv.2)

/-- `_rebuild_nav_content` (lines 261-306). -/
def rebuildNavContent (navContent : String) (nav : NavStructure) : String :=
  let navLines := pySplitLines navContent
  let newNavLines := filterApiRef false navLines
  let newApiSection := "  - API Reference:\n" ++ navToYamlString (apiNavItems nav) 2
  match newNavLines.findIdx? (fun l => pyStartsWith (pyStrip l) "- About:") with
  | some i => String.intercalate "\n" (insertBefore i newNavLines [newApiSection, ""])
  | none =>
    let needSep :=
      match newNavLines.getLast? with
      | some l => strippedNonEmpty l
      | none => false
    let withSep := if needSep then newNavLines ++ [""] else newNavLines
    String.intercalate "\n" (withSep ++ [newApiSection])

/-- `_update_mkdocs_config_legacy` (lines 202-259) as a function from the
current destination text to the text it would write; `none` when the
`nav:` section cannot be found (operation fails, nothing written).
This routine exists in the source but has no caller. -/
def updateMkdocsConfigLegacy (dest : String) (nav : NavStructure) : Option String :=
  let cs := dest.data
  match findNavMatch cs with
  | none => none
  | some se =>
    let contentBeforeNav := String.mk (cs.take se.1)
    let remaining := cs.drop se.2
    let split :=
      match nextConfigMatch remaining with
      | some p => (String.mk (remaining.take (p + 1)), String.mk (remaining.drop (p + 1)))
      | none => (String.mk remaining, "")
    some (contentBeforeNav ++ "nav:\n" ++ rebuildNavContent split.1 nav ++ split.2)

/-! ## Export-list extraction (`_parse_init_doc_and_all`, lines 525-544)

The relevant fragment of the Python expression grammar is embedded:
constants and list/tuple displays (which `ast.literal_eval` evaluates),
and the non-literal forms the spec names — name references (imported
values), calls (computed values), binary operations (concatenations) and
attribute accesses — on which `ast.literal_eval` raises.  (`literal_eval`
accepts a binary `+`/`-` only between a real and an imaginary number
literal; complex literals are outside this model, so a binary operation
always fails here, as it does on lists and strings.)  String quoting in
`repr` is simplified to single quotes without escaping. -/

/-- A Python literal constant. -/
inductive PyLit where
  | str : String → PyLit
  | int : Int → PyLit
  | bool : Bool → PyLit
  | none : PyLit

/-- Top-level expression forms relevant to `__all__` values. -/
inductive PyExpr where
  | const : PyLit → PyExpr
  | list : List PyExpr → PyExpr
  | tuple : List PyExpr → PyExpr
  | name : String → PyExpr
  | call : String → List PyExpr → PyExpr
  | binop : PyExpr → PyExpr → PyExpr
  | attribute : PyExpr → String → PyExpr

/-- A value produced by `ast.literal_eval`. -/
inductive PyVal where
  | str : String → PyVal
  | int : Int → PyVal
  | bool : Bool → PyVal
  | none : PyVal
  | list : List PyVal → PyVal
  | tuple : List PyVal → PyVal

mutual

/-- `ast.literal_eval` on the embedded grammar: constants and list/tuple
displays of evaluable elements succeed; every other form raises. -/
def literalEval : PyExpr → Option PyVal
  | .const (.str s) => some (.str s)
  | .const (.int i) => some (.int i)
  | .const (.bool b) => some (.bool b)
  | .const .none => some PyVal.none
  | .list es => (literalEvalList es).map PyVal.list
  | .tuple es => (literalEvalList es).map PyVal.tuple
  | .name _ => Option.none
  | .call _ _ => Option.none
  | .binop _ _ => Option.none
  | .attribute _ _ => Option.none

/-- Elementwise evaluation of a display's elements. -/
def literalEvalList : List PyExpr → Option (List PyVal)
  | [] => some []
  | e :: es =>
    match literalEval e, literalEvalList es with
    | some v, some vs => some (v :: vs)
    | _, _ => Option.none

end

mutual

/-- Python `repr` of a literal value (string quoting simplified). -/
def pyRepr : PyVal → String
  | .str s => "'" ++ s ++ "'"
  | .int i => toString i
  | .bool b => if b then "True" else "False"
  | .none => "None"
  | .list vs => "[" ++ String.intercalate ", " (pyReprList vs) ++ "]"
  | .tuple [v] => "(" ++ pyRepr v ++ ",)"
  | .tuple [] => "()"
  | .tuple (v :: w :: vs) =>
    "(" ++ String.intercalate ", " (pyReprList (v :: w :: vs)) ++ ")"

/-- `repr` of each element of a display. -/
def pyReprList : List PyVal → List String
  | [] => []
  | v :: vs => pyRepr v :: pyReprList vs

end

/-- Python `str(v)` as applied to each element of the evaluated
`__all__` value (line 539). -/
def pyStr : PyVal → String
  | .str s => s
  | v => pyRepr v

/-- An assignment target (`ast.Name` or any other target form). -/
inductive PyTarget where
  | name : String → PyTarget
  | other : PyTarget

/-- Top-level statements of a module body. -/
inductive PyStmt where
  | assign : List PyTarget → PyExpr → PyStmt
  | exprStmt : PyExpr → PyStmt
  | other : PyStmt

/-- The per-target step of the `__all__` scan (lines 534-541): a `Name`
target called `__all__` whose value evaluates to a list or tuple
replaces the export list; an evaluation failure or a non-sequence value
leaves it unchanged. -/
def scanTarget (value : PyExpr) (exports : List String) : PyTarget → List String
  | .name id =>
    if id == "__all__" then
      match literalEval value with
      | some (.list vs) => vs.map pyStr
      | some (.tuple vs) => vs.map pyStr
      | some _ => exports
      | Option.none => exports
    else exports
  | .other => exports

/-- The per-statement step of the `__all__` scan: assignments fold
`scanTarget` over their targets, other statements change nothing. -/
def extractStep (exports : List String) : PyStmt → List String
  | .assign targets value => targets.foldl (scanTarget value) exports
  | _ => exports

/-- The `for node in tree.body` walk of `_parse_init_doc_and_all`
(lines 531-541). -/
def extractAll (body : List PyStmt) : List String :=
  body.foldl extractStep []

/-- `ast.get_docstring`: the leading string-constant expression
statement, if any (docstring cleaning is not modelled; the script never
uses the text). -/
def getDocstring (body : List PyStmt) : Option String :=
  match body with
  | .exprStmt (.const (.str s)) :: _ => some s
  | _ => Option.none

/-- `_parse_init_doc_and_all` (lines 525-544): the argument is `none`
when reading or parsing the file raises, in which case the result is
`(None, [])`. -/
def parseInitDocAndAll (parsed : Option (List PyStmt)) : Option String × List String :=
  match parsed with
  | Option.none => (Option.none, [])
  | some body => (getDocstring body, extractAll body)

/-! ## Scan-loop node collection

The per-file body of `_build_nav_structure_only` (lines 764-805; the
recording condition at lines 798-800).  A candidate abstracts one
scanned file that already passed the exclusion and validity filters:
its module-path parts and the export list parsed from it. -/

/-- The configuration options the modelled code paths consult. -/
structure ScanConfig where
  only_index_pages : Bool
  single_entry_as_group : Bool
  docs_base_path : String

/-- One scanned candidate file. -/
structure Candidate where
  parts : List String
  exports : List String

/-- Whether the candidate file is an `__init__.py` (its stem is the last
module-path part). -/
def isInitCand (c : Candidate) : Bool :=
  c.parts.getLastD "" == "__init__"

/-- The node recorded in `package_nodes[package_name]` for one candidate,
if any: `__init__` files with a non-empty `__all__` are recorded under
their parent parts with an `index.md` document path (lines 783-800,
including `process_init_module`, lines 505-523); `__main__` files and
all non-`__init__` files record nothing (when `only_index_pages` is
false a non-`__init__` file is documented but still not recorded —
line 799's condition fails). -/
def processCandidate (cfg : ScanConfig) (pkgName : String) (c : Candidate) :
    Option (List String × String) :=
  if isInitCand c then
    let hasAll := decide (0 < c.exports.length)
    let parts := if 1 < c.parts.length then c.parts.dropLast else c.parts
    let docPath :=
      if 1 < c.parts.length then
        String.intercalate "/" (c.parts.dropLast ++ ["index.md"])
      else "__init__.md"
    if parts.isEmpty then Option.none
    else if !hasAll then Option.none
    else some (parts, cfg.docs_base_path ++ "/" ++ pkgName ++ "/" ++ docPath)
  else if c.parts.getLastD "" == "__main__" then Option.none
  else Option.none

/-- `package_nodes[package_name]` after the scan loop: the recorded
nodes in file order. -/
def collectNodes (cfg : ScanConfig) (pkgName : String) (cands : List Candidate) : NodesMap :=
  cands.filterMap (processCandidate cfg pkgName)

/-- The full structure-only pass for one package: scan-loop collection
followed by the group builder. -/
def buildNavOnlyPackage (cfg : ScanConfig) (pkgName : String) (cands : List Candidate) :
    PackageStructure :=
  buildNavStructureOnly (collectNodes cfg pkgName cands) cfg.single_entry_as_group

/-! ## Derived observation functions

Used only to state properties: the set of target paths occurring in a
rendered structure, and the statement-level predicate behind the C5
hypothesis. -/

mutual

/-- All target paths occurring in one navigation item. -/
def itemPaths : NavItem → List String
  | .leaf _ p => [p]
  | .group _ cs => forestPaths cs

/-- All target paths occurring in a forest. -/
def forestPaths : NavForest → List String
  | .nil => []
  | .cons x xs => itemPaths x ++ forestPaths xs

end

/-- All target paths under one display key's value. -/
def valuePaths : GroupValue → List String
  | .single p => [p]
  | .items xs => xs.flatMap itemPaths

/-- All target paths occurring in a package structure. -/
def targetPaths (s : PackageStructure) : List String :=
  s.flatMap fun kv => valuePaths kv.2

/-- This statement would replace the export list: it assigns to a `Name`
target `__all__` and its value literal-evaluates to a list or tuple. -/
def assignsAllSeqLiteral : PyStmt → Bool
  | .assign ts v =>
    (ts.any fun t => match t with | .name id => id == "__all__" | .other => false)
      && (match literalEval v with
          | some (.list _) => true
          | some (.tuple _) => true
          | _ => false)
  | _ => false

/-! ## Theorems -/

/-! ### Classifier lemmas (C4) -/

/-- An `__init__` candidate with an empty export list records no node
(`has_all` is false, so the scan loop `continue`s at line 788). -/
theorem processCandidate_init_empty (cfg : ScanConfig) (pkgName : String) (c : Candidate)
    (hinit : isInitCand c = true) (hexp : c.exports = []) :
    processCandidate cfg pkgName c = Option.none := by
  simp [processCandidate, hinit, hexp]

/-- An `__init__` candidate with a non-empty export list always records
a node. -/
theorem processCandidate_init_some (cfg : ScanConfig) (pkgName : String) (c : Candidate)
    (hinit : isInitCand c = true) (hexp : c.exports ≠ []) :
    processCandidate cfg pkgName c ≠ Option.none := by
  have hne : c.parts ≠ [] := by
    intro h
    rw [isInitCand, h] at hinit
    simp [List.getLastD] at hinit
  have hAll : decide (0 < c.exports.length) = true := by
    rcases hx : c.exports with _ | ⟨a, l⟩
    · exact absurd hx hexp
    · simp
  by_cases hlen : 1 < c.parts.length
  · have hdrop : c.parts.dropLast ≠ [] := by
      have hl : c.parts.dropLast.length = c.parts.length - 1 := List.length_dropLast _
      intro h
      rw [h] at hl
      simp at hl
      omega
    simp [processCandidate, hinit, hlen, hAll, hdrop]
  · simp [processCandidate, hinit, hlen, hAll, hne]

/-- C4 (confirmed).  A package index (an `__init__` entry point) whose
extracted export list is empty is dropped: removing such a candidate
from the scan changes nothing in the resulting per-package navigation
structure.  Moreover export-list presence is the sole admission gate:
an `__init__` candidate records a node if and only if its export list
is non-empty. -/
theorem c4_empty_export_index_dropped (cfg : ScanConfig) (pkgName : String)
    (pre post : List Candidate) (c : Candidate)
    (hinit : isInitCand c = true) (hexp : c.exports = []) :
    buildNavOnlyPackage cfg pkgName (pre ++ c :: post)
      = buildNavOnlyPackage cfg pkgName (pre ++ post)
  ∧ (∀ c' : Candidate, isInitCand c' = true →
      (processCandidate cfg pkgName c' = Option.none ↔ c'.exports = [])) := by
  constructor
  · unfold buildNavOnlyPackage collectNodes
    rw [List.filterMap_append, List.filterMap_append, List.filterMap_cons,
      processCandidate_init_empty cfg pkgName c hinit hexp]
  · intro c' hinit'
    constructor
    · intro hnone
      by_contra hne
      exact processCandidate_init_some cfg pkgName c' hinit' hne hnone
    · exact processCandidate_init_empty cfg pkgName c' hinit'

/-- Witness for `c4_empty_export_index_dropped`: a concrete scan with an
exportless package index alongside an exporting one. -/
theorem c4_empty_export_index_dropped_witness :
    isInitCand ⟨["pkg", "__init__"], []⟩ = true
  ∧ buildNavOnlyPackage ⟨true, true, "reference"⟩ "bc"
      ([⟨["pkg", "sub", "mod", "__init__"], ["X"]⟩] ++ ⟨["pkg", "__init__"], []⟩ :: [])
      = buildNavOnlyPackage ⟨true, true, "reference"⟩ "bc"
          ([⟨["pkg", "sub", "mod", "__init__"], ["X"]⟩] ++ []) :=
  ⟨by decide,
    (c4_empty_export_index_dropped ⟨true, true, "reference"⟩ "bc"
      [⟨["pkg", "sub", "mod", "__init__"], ["X"]⟩] [] ⟨["pkg", "__init__"], []⟩
      (by decide) rfl).1⟩

/-! ### Export-extraction lemmas (C5) -/

/-- A target step leaves the export list unchanged when the assigned
value does not evaluate to a list or tuple. -/
theorem scanTarget_of_not_seq (v : PyExpr) (ex : List String) (t : PyTarget)
    (hv : (match literalEval v with
           | some (.list _) => true
           | some (.tuple _) => true
           | _ => false) = false) :
    scanTarget v ex t = ex := by
  cases t with
  | other => rfl
  | name id =>
    simp only [scanTarget]
    rcases h : literalEval v with _ | val
    · rw [h] at hv
      simp [hv]
    · rw [h] at hv
      cases val <;> simp_all


/-- C1 (counterexample).  The primary merge does not render every package:
for a navigation structure whose single package is named `otherpkg` —
holding exactly the group `pkg.sub.mod` with child `pkg.sub.mod.leaf` of
the claim's scenario — the generated API-reference content is empty, so
the merge output holds nothing at the placeholder location (in
particular no list keyed `mod`/`leaf`). -/
theorem c1_render_all_packages_counterexample :
    generateApiReferenceContent
      [("otherpkg", [("pkg.sub.mod", GroupValue.items
          [NavItem.leaf "mod" "p1.md", NavItem.leaf "leaf" "p2.md"])])] = ""
  ∧ updateMkdocsConfig (some ("A\n" ++ PLACEHOLDER ++ "\nB"))
      [("otherpkg", [("pkg.sub.mod", GroupValue.items
          [NavItem.leaf "mod" "p1.md", NavItem.leaf "leaf" "p2.md"])])]
      = some "A\n\nB"
  ∧ pyContains "A\n\nB" "mod" = false :=
  ⟨rfl, rfl, by decide⟩

/-- C1 (amended).  In primary mode the merge substitutes the rendered
content at every placeholder occurrence and leaves all other template
content unaltered, but the rendered content covers only the package
whose name lower-cases to `bridgic-core` (in full) plus synthesized
`bridgic-llms-*` integration entries; for the claim's scenario hosted in
the `bridgic-core` package, the output carries the two-item nested list
keyed `mod` and `leaf` at the placeholder location. -/
theorem c1_template_substitution_amended :
    (∀ t nav, pyContains t PLACEHOLDER = true →
      updateMkdocsConfig (some t) nav
        = some (pyReplace t PLACEHOLDER (generateApiReferenceContent nav)))
  ∧ updateMkdocsConfig (some ("# cfg\nnav:\n" ++ PLACEHOLDER ++ "\nplugins: x\n"))
      [("bridgic-core", [("pkg.sub.mod", GroupValue.items
          [NavItem.leaf "mod" "reference/pkg/sub/mod/index.md",
           NavItem.leaf "leaf" "reference/pkg/sub/mod/leaf/index.md"])])]
      = some ("# cfg\nnav:\n    - Bridgic-Core:\n      - pkg.sub.mod:\n"
          ++ "        - mod: reference/pkg/sub/mod/index.md\n"
          ++ "        - leaf: reference/pkg/sub/mod/leaf/index.md\nplugins: x\n") := by
  constructor
  · intro t nav ht
    simp [updateMkdocsConfig, ht]
  · rfl

/-- Witness for the hypothesis-bearing half of `c1_template_substitution_amended`. -/
theorem c1_template_substitution_amended_witness :
    pyContains ("A\n" ++ PLACEHOLDER ++ "\nB") PLACEHOLDER = true
  ∧ updateMkdocsConfig (some ("A\n" ++ PLACEHOLDER ++ "\nB")) []
      = some (pyReplace ("A\n" ++ PLACEHOLDER ++ "\nB") PLACEHOLDER
          (generateApiReferenceContent [])) :=
  ⟨by decide, c1_template_substitution_amended.1 ("A\n" ++ PLACEHOLDER ++ "\nB") [] (by decide)⟩

/-- C2 (counterexample).  Writing is not write-to-temp-then-replace: the
destination is opened truncating and written directly, so a write error
(modelled as an interruption after 0 characters) leaves an emptied
destination — the merge failed but the destination changed. -/
theorem c2_atomic_write_counterexample :
    mergeEngineRunWithWrite (some PLACEHOLDER) [] "nav: old\n" (some 0) = ("", false)
  ∧ ("" : String) ≠ "nav: old\n" :=
  ⟨rfl, by decide⟩

/-- C2 (amended).  Failures detected before the write — a missing
template, a placeholder-free template, or (in the uncalled legacy path)
a missing `nav:` section — leave the destination untouched; only the
write step itself is non-atomic. -/
theorem c2_fail_before_write_untouched (nav : NavStructure) (dest : String)
    (interrupt : Option Nat) :
    mergeEngineRunWithWrite Option.none nav dest interrupt = (dest, false)
  ∧ (∀ t, pyContains t PLACEHOLDER = false →
      mergeEngineRunWithWrite (some t) nav dest interrupt = (dest, false))
  ∧ (∀ d : String, findNavMatch d.data = Option.none →
      updateMkdocsConfigLegacy d nav = Option.none) := by
  refine ⟨rfl, ?_, ?_⟩
  · intro t ht
    simp [mergeEngineRunWithWrite, updateMkdocsConfig, ht]
  · intro d hd
    simp [updateMkdocsConfigLegacy, hd]

/-- Witness for `c2_fail_before_write_untouched`. -/
theorem c2_fail_before_write_untouched_witness :
    pyContains "no token" PLACEHOLDER = false
  ∧ mergeEngineRunWithWrite (some "no token") [] "keep" (some 0) = ("keep", false) :=
  ⟨by decide, (c2_fail_before_write_untouched [] "keep" (some 0)).2.1 "no token" (by decide)⟩

/-- C3 (counterexample).  No fallback to region-staging happens when the
template is unavailable: the merge simply fails and leaves the
destination as is, although the (never-called) legacy region-staging
routine applied to the same destination would have succeeded and
produced a different text. -/
theorem c3_no_fallback_counterexample :
    mergeEngineRun Option.none
      [("otherpkg", [("pkg.sub.mod", GroupValue.single "p1.md")])]
      "site: x\nnav:\n  - Home: index.md\n\ntheme: t\n"
      = ("site: x\nnav:\n  - Home: index.md\n\ntheme: t\n", false)
  ∧ updateMkdocsConfigLegacy "site: x\nnav:\n  - Home: index.md\n\ntheme: t\n"
      [("otherpkg", [("pkg.sub.mod", GroupValue.single "p1.md")])]
      = some ("site: x\nnav:\n\n  - Home: index.md\n\n\n  - API Reference:\n"
          ++ "  - Otherpkg:\n    - pkg.sub.mod: p1.mdtheme: t\n")
  ∧ ("site: x\nnav:\n\n  - Home: index.md\n\n\n  - API Reference:\n"
          ++ "  - Otherpkg:\n    - pkg.sub.mod: p1.mdtheme: t\n")
      ≠ "site: x\nnav:\n  - Home: index.md\n\ntheme: t\n" :=
  ⟨rfl, rfl, by decide⟩

/-- C3 (amended).  The merge engine never falls back: whenever the
template is unavailable the operation fails and the destination is
untouched, for every navigation structure and destination text (the
legacy region-staging routine exists in the source but has no caller). -/
theorem c3_no_fallback_amended (nav : NavStructure) (dest : String) :
    mergeEngineRun Option.none nav dest = (dest, false) :=
  rfl

/-- A target step leaves the export list unchanged when the target is
not the name `__all__`. -/
theorem scanTarget_of_not_all (v : PyExpr) (ex : List String) (t : PyTarget)
    (ht : (match t with | PyTarget.name id => id == "__all__" | PyTarget.other => false)
        = false) :
    scanTarget v ex t = ex := by
  cases t with
  | other => rfl
  | name id =>
    simp only [scanTarget]
    simp only at ht
    simp [ht]

/-- Folding `scanTarget` over targets keeps the export list when the
assigned value does not evaluate to a sequence. -/
theorem foldl_scanTarget_of_not_seq (v : PyExpr) (ts : List PyTarget)
    (hv : (match literalEval v with
           | some (.list _) => true
           | some (.tuple _) => true
           | _ => false) = false) :
    ∀ ex : List String, ts.foldl (scanTarget v) ex = ex := by
  induction ts with
  | nil => intro ex; rfl
  | cons t ts ih =>
    intro ex
    simp only [List.foldl_cons]
    rw [scanTarget_of_not_seq v ex t hv, ih ex]

/-- Folding `scanTarget` over targets keeps the export list when no
target is the name `__all__`. -/
theorem foldl_scanTarget_of_not_all (v : PyExpr) (ts : List PyTarget)
    (ht : ∀ t ∈ ts,
      (match t with | PyTarget.name id => id == "__all__" | PyTarget.other => false)
        = false) :
    ∀ ex : List String, ts.foldl (scanTarget v) ex = ex := by
  induction ts with
  | nil => intro ex; rfl
  | cons t ts ih =>
    intro ex
    simp only [List.foldl_cons]
    rw [scanTarget_of_not_all v ex t (ht t (by simp)),
      ih (fun t' ht' => ht t' (by simp [ht'])) ex]

/-- A statement that does not assign `__all__` a list/tuple literal
leaves the running export list unchanged. -/
theorem extractStep_id (ex : List String) (s : PyStmt)
    (h : assignsAllSeqLiteral s = false) :
    extractStep ex s = ex := by
  cases s with
  | exprStmt e => rfl
  | other => rfl
  | assign ts v =>
    simp only [assignsAllSeqLiteral, Bool.and_eq_false_iff] at h
    rcases h with h | h
    · rw [List.any_eq_false] at h
      exact foldl_scanTarget_of_not_all v ts
        (fun t ht => Bool.eq_false_iff.mpr (h t ht)) ex
    · exact foldl_scanTarget_of_not_seq v ts h ex

/-- The fold of `extractAll` keeps any running value over statements
that never assign `__all__` a list/tuple literal. -/
theorem extractAll_foldl_id (body : List PyStmt) (ex : List String)
    (h : ∀ s ∈ body, assignsAllSeqLiteral s = false) :
    body.foldl extractStep ex = ex := by
  induction body generalizing ex with
  | nil => rfl
  | cons s rest ih =>
    simp only [List.foldl_cons]
    rw [extractStep_id ex s (h s (by simp)), ih ex (fun s' hs' => h s' (by simp [hs']))]

/-- C5 (confirmed).  Export extraction evaluates only literal values:
whenever every top-level `__all__` assignment carries a value that is
not a list/tuple literal of evaluable constants (a name reference, a
call, a concatenation, an attribute access, or any form on which
`ast.literal_eval` raises), the extracted export list is empty; the
docstring is still extracted (the file is otherwise visited), and a
read/parse failure likewise yields `(None, [])`.  The enumerated
non-literal forms never evaluate. -/
theorem c5_nonliteral_exports_empty (body : List PyStmt)
    (h : ∀ s ∈ body, assignsAllSeqLiteral s = false) :
    extractAll body = []
  ∧ parseInitDocAndAll (some body) = (getDocstring body, [])
  ∧ parseInitDocAndAll Option.none = (Option.none, [])
  ∧ (∀ n, literalEval (PyExpr.name n) = Option.none)
  ∧ (∀ f args, literalEval (PyExpr.call f args) = Option.none)
  ∧ (∀ a b, literalEval (PyExpr.binop a b) = Option.none)
  ∧ (∀ e a, literalEval (PyExpr.attribute e a) = Option.none) := by
  have hx : extractAll body = [] := extractAll_foldl_id body [] h
  exact ⟨hx, by simp [parseInitDocAndAll, hx], rfl,
    fun _ => rfl, fun _ _ => rfl, fun _ _ => rfl, fun _ _ => rfl⟩

/-- Witness for `c5_nonliteral_exports_empty`: a module whose `__all__`
is a concatenation of two list literals (plus a docstring). -/
theorem c5_nonliteral_exports_empty_witness :
    (∀ s ∈ [PyStmt.exprStmt (PyExpr.const (PyLit.str "doc")),
            PyStmt.assign [PyTarget.name "__all__"]
              (PyExpr.binop (PyExpr.list [PyExpr.const (PyLit.str "a")])
                (PyExpr.list [PyExpr.const (PyLit.str "b")]))],
        assignsAllSeqLiteral s = false)
  ∧ extractAll [PyStmt.exprStmt (PyExpr.const (PyLit.str "doc")),
        PyStmt.assign [PyTarget.name "__all__"]
          (PyExpr.binop (PyExpr.list [PyExpr.const (PyLit.str "a")])
            (PyExpr.list [PyExpr.const (PyLit.str "b")]))] = [] :=
  ⟨by decide,
    (c5_nonliteral_exports_empty
      [PyStmt.exprStmt (PyExpr.const (PyLit.str "doc")),
       PyStmt.assign [PyTarget.name "__all__"]
         (PyExpr.binop (PyExpr.list [PyExpr.const (PyLit.str "a")])
           (PyExpr.list [PyExpr.const (PyLit.str "b")]))]
      (by decide)).1⟩

/-- C6 (counterexample).  The designated index of a group need not be an
entry point whose path equals the group key: with a single node
`a.b.c.d`, no entry point's path equals the key `a.b.c`, yet the group
gets an index row — labelled `c` but pointing at the path of the
four-segment entry `a.b.c.d`. -/
theorem c6_group_index_counterexample :
    groupIndex [(["a", "b", "c", "d"], "d.md")] ["a", "b", "c"] = some "d.md"
  ∧ (∀ pt ∈ ([(["a", "b", "c", "d"], "d.md")] : NodesMap), pt.1 ≠ ["a", "b", "c"])
  ∧ buildNavStructureOnly [(["a", "b", "c", "d"], "d.md")] true
      = [("a.b.c", GroupValue.items
          [NavItem.leaf "c" "d.md", NavItem.leaf "d" "d.md"])] :=
  ⟨rfl, by decide, rfl⟩

/-- C6 (amended).  The designated index is the path of the first node in
insertion order whose first three segments equal the group key; in
particular, whenever the exact-match entry point precedes every other
node of its group, it is the designated index, and the index row's label
is the group key's last segment (the real module name). -/
theorem c6_group_index_amended (pre post : NodesMap) (key : List String) (p : String)
    (hkey : key.length = 3)
    (hpre : ∀ q ∈ pre, ¬(3 ≤ q.1.length ∧ q.1.take 3 = key)) :
    groupIndex (pre ++ (key, p) :: post) key = some p
  ∧ ∃ rest, groupItems (pre ++ (key, p) :: post) key
      = NavItem.leaf (lastSeg key) p :: rest := by
  have hprednone : pre.find? (fun pt => decide (3 ≤ pt.1.length) && pt.1.take 3 == key)
      = Option.none := by
    rw [List.find?_eq_none]
    intro q hq hx
    simp only [Bool.and_eq_true, decide_eq_true_eq, beq_iff_eq] at hx
    exact hpre q hq hx
  have hpred : (decide (3 ≤ (key, p).1.length) && (key, p).1.take 3 == key) = true := by
    simp only [Bool.and_eq_true, decide_eq_true_eq, beq_iff_eq]
    exact ⟨by omega, by rw [← hkey]; exact List.take_length key⟩
  have hfind : (pre ++ (key, p) :: post).find?
      (fun pt => decide (3 ≤ pt.1.length) && pt.1.take 3 == key) = some (key, p) := by
    rw [List.find?_append, hprednone, Option.none_or]
    exact List.find?_cons_of_pos _ hpred
  have hidx : groupIndex (pre ++ (key, p) :: post) key = some p := by
    rw [groupIndex, hfind]
    rfl
  refine ⟨hidx,
    (sortByParts (childIndexMap (pre ++ (key, p) :: post) key)).map
      (childEntry (pre ++ (key, p) :: post)), ?_⟩
  rw [groupItems, groupIndexD, hidx]
  rfl

/-- Witness for `c6_group_index_amended`. -/
theorem c6_group_index_amended_witness :
    (∀ q ∈ ([(["x"], "q.md")] : NodesMap),
      ¬(3 ≤ q.1.length ∧ q.1.take 3 = ["a", "b", "c"]))
  ∧ groupIndex ([(["x"], "q.md")] ++ (["a", "b", "c"], "i.md")
        :: [(["a", "b", "c", "d"], "d.md")]) ["a", "b", "c"] = some "i.md" :=
  ⟨by decide,
    (c6_group_index_amended [(["x"], "q.md")] [(["a", "b", "c", "d"], "d.md")]
      ["a", "b", "c"] "i.md" (by decide) (by decide)).1⟩

/-- C8 (confirmed).  A group whose only surviving member is its own
index keeps exactly the index row, and the single-entry policy decides
its shape in the package structure: a one-child group when
`single_entry_as_group` is true, a bare leaf holding the index's target
when it is false. -/
theorem c8_single_entry_policy (nodes : NodesMap) (seg : Bool) (key : List String)
    (hk : key ∈ groupKeys nodes)
    (h1 : (groupItems nodes key).length = 1) :
    groupItems nodes key = [NavItem.leaf (lastSeg key) (groupIndexD nodes key)]
  ∧ (String.intercalate "." key,
      if seg then GroupValue.items (groupItems nodes key)
      else GroupValue.single (groupIndexD nodes key)) ∈ buildNavStructureOnly nodes seg := by
  have hmap : (sortByParts (childIndexMap nodes key)).map (childEntry nodes) = [] := by
    have h := h1
    simp only [groupItems, List.length_cons] at h
    exact List.length_eq_zero.mp (by omega)
  constructor
  · rw [groupItems, hmap]
  · refine List.mem_map.mpr ⟨key, hk, ?_⟩
    dsimp only
    rw [h1]
    simp

/-- Witness for `c8_single_entry_policy`: a group holding only its own
index, rendered under the disabled policy as a bare leaf. -/
theorem c8_single_entry_policy_witness :
    ["a", "b", "c"] ∈ groupKeys [(["a", "b", "c"], "i.md")]
  ∧ (groupItems [(["a", "b", "c"], "i.md")] ["a", "b", "c"]).length = 1
  ∧ (String.intercalate "." ["a", "b", "c"],
      if false then GroupValue.items (groupItems [(["a", "b", "c"], "i.md")] ["a", "b", "c"])
      else GroupValue.single (groupIndexD [(["a", "b", "c"], "i.md")] ["a", "b", "c"]))
      ∈ buildNavStructureOnly [(["a", "b", "c"], "i.md")] false := by
  refine ⟨by decide, ?_, ?_⟩
  · rfl
  · exact (c8_single_entry_policy [(["a", "b", "c"], "i.md")] false ["a", "b", "c"]
      (by decide) rfl).2

/-- C9 (confirmed).  The merge is deterministic (a function of template
and navigation structure only) and idempotent: re-running it on its own
output changes nothing. -/
theorem c9_merge_idempotent (template : Option String) (nav : NavStructure) (dest : String) :
    mergeEngineRun template nav (mergeEngineRun template nav dest).1
      = mergeEngineRun template nav dest := by
  unfold mergeEngineRun
  cases updateMkdocsConfig template nav <;> rfl

/-! ### Builder lemmas (C7, C10) -/

/-- Membership in a stable insertion. -/
theorem mem_insertSorted {α : Type} (lt : α → α → Bool) (x a : α) :
    ∀ l : List α, (a ∈ insertSorted lt x l) ↔ (a = x ∨ a ∈ l) := by
  intro l
  induction l with
  | nil => simp [insertSorted]
  | cons y ys ih =>
    simp only [insertSorted]
    split
    · simp only [List.mem_cons, ih]
      tauto
    · simp only [List.mem_cons]

/-- Sorting changes no memberships. -/
theorem mem_pySorted {α : Type} (lt : α → α → Bool) (a : α) :
    ∀ l : List α, (a ∈ pySorted lt l) ↔ (a ∈ l) := by
  intro l
  induction l with
  | nil => simp [pySorted]
  | cons x xs ih => simp [pySorted, mem_insertSorted, ih]

/-- Paths of a converted forest are the concatenated item paths. -/
theorem forestPaths_forestOfList : ∀ l : List NavItem,
    forestPaths (forestOfList l) = l.flatMap itemPaths := by
  intro l
  induction l with
  | nil => rfl
  | cons x xs ih => simp [forestOfList, forestPaths, ih]

/-- First-occurrence filtering keeps only existing keys. -/
theorem mem_firstOccurAux (x : List String) :
    ∀ (l seen : List (List String)), x ∈ firstOccurAux seen l → x ∈ l := by
  intro l
  induction l with
  | nil =>
    intro seen h
    exact absurd h (by simp [firstOccurAux])
  | cons a rest ih =>
    intro seen h
    rw [firstOccurAux] at h
    split at h
    · exact List.mem_cons_of_mem a (ih seen h)
    · rcases List.mem_cons.mp h with h | h
      · exact h ▸ List.mem_cons_self a rest
      · exact List.mem_cons_of_mem a (ih _ h)

/-- Every group key consists of exactly three segments. -/
theorem groupKeys_length (nodes : NodesMap) (key : List String)
    (hk : key ∈ groupKeys nodes) : key.length = 3 := by
  have hmem := mem_firstOccurAux key _ [] hk
  rw [List.mem_filterMap] at hmem
  obtain ⟨pt, hpt, hfe⟩ := hmem
  by_cases h3 : 3 ≤ pt.1.length
  · rw [if_pos h3] at hfe
    cases hfe
    simp only [List.length_take]
    omega
  · rw [if_neg h3] at hfe
    cases hfe

/-- Pre-filtering by `p` does not change a `filterMap` that is `none`
outside `p`. -/
theorem filterMap_filter_eq {α β : Type} (p : α → Bool) (f : α → Option β)
    (h : ∀ x, p x = false → f x = Option.none) :
    ∀ l : List α, (l.filter p).filterMap f = l.filterMap f := by
  intro l
  induction l with
  | nil => rfl
  | cons a l ih =>
    rcases hp : p a with _ | _
    · simp [List.filter_cons, hp, List.filterMap_cons, h a hp, ih]
    · simp [List.filter_cons, hp, List.filterMap_cons, ih]

/-- Pre-filtering by `p` does not change a `find?` whose test implies `p`. -/
theorem find?_filter_eq {α : Type} (p q : α → Bool) (h : ∀ x, q x = true → p x = true) :
    ∀ l : List α, (l.filter p).find? q = l.find? q := by
  intro l
  induction l with
  | nil => rfl
  | cons a l ih =>
    rcases hp : p a with _ | _
    · have hq : q a = false := by
        rcases hqa : q a with _ | _
        · rfl
        · rw [h a hqa] at hp
          cases hp
      simp [List.filter_cons, hp, List.find?_cons, hq, ih]
    · rcases hqa : q a with _ | _
      · simp [List.filter_cons, hp, List.find?_cons, hqa, ih]
      · simp [List.filter_cons, hp, List.find?_cons, hqa]

/-- Pre-filtering by `p` does not change a `filter` whose test implies `p`. -/
theorem filter_filter_eq {α : Type} (p q : α → Bool) (h : ∀ x, q x = true → p x = true) :
    ∀ l : List α, (l.filter p).filter q = l.filter q := by
  intro l
  induction l with
  | nil => rfl
  | cons a l ih =>
    rcases hp : p a with _ | _
    · have hq : q a = false := by
        rcases hqa : q a with _ | _
        · rfl
        · rw [h a hqa] at hp
          cases hp
      simp [List.filter_cons, hp, hq, ih]
    · simp [List.filter_cons, hp, ih]

/-- Pre-filtering by `p` does not change an `any` whose test implies `p`. -/
theorem any_filter_eq {α : Type} (p q : α → Bool) (h : ∀ x, q x = true → p x = true) :
    ∀ l : List α, (l.filter p).any q = l.any q := by
  intro l
  induction l with
  | nil => rfl
  | cons a l ih =>
    rcases hp : p a with _ | _
    · have hq : q a = false := by
        rcases hqa : q a with _ | _
        · rfl
        · rw [h a hqa] at hp
          cases hp
      simp [List.filter_cons, hp, hq, ih]
    · simp [List.filter_cons, hp, ih]

/-- Nodes with fewer than three segments contribute no group key. -/
theorem groupKeys_filter3 (nodes : NodesMap) :
    groupKeys (nodes.filter fun pt => decide (3 ≤ pt.1.length)) = groupKeys nodes := by
  unfold groupKeys
  rw [filterMap_filter_eq]
  intro x hx
  rw [if_neg]
  simpa using hx

/-- Nodes with fewer than three segments do not affect a group index. -/
theorem groupIndex_filter3 (nodes : NodesMap) (key : List String) :
    groupIndex (nodes.filter fun pt => decide (3 ≤ pt.1.length)) key
      = groupIndex nodes key := by
  unfold groupIndex
  rw [find?_filter_eq]
  intro x hx
  rw [Bool.and_eq_true] at hx
  exact hx.1

/-- Nodes with fewer than three segments do not affect direct children. -/
theorem childIndexMap_filter3 (nodes : NodesMap) (key : List String) :
    childIndexMap (nodes.filter fun pt => decide (3 ≤ pt.1.length)) key
      = childIndexMap nodes key := by
  unfold childIndexMap
  rw [filter_filter_eq]
  intro x hx
  rw [Bool.and_eq_true] at hx
  have := hx.1
  simp only [beq_iff_eq] at this
  simp [this]

/-- Nodes with fewer than three segments do not affect `has_deeper`. -/
theorem hasDeeper_filter3 (nodes : NodesMap) (child : List String) :
    hasDeeper (nodes.filter fun pt => decide (3 ≤ pt.1.length)) child
      = hasDeeper nodes child := by
  unfold hasDeeper
  rw [any_filter_eq]
  intro x hx
  rw [Bool.and_eq_true] at hx
  have := hx.1
  simp only [decide_eq_true_eq] at this
  simp
  omega

/-- Nodes with fewer than three segments do not affect grandchildren. -/
theorem gcItems_filter3 (nodes : NodesMap) (child : List String) :
    gcItems (nodes.filter fun pt => decide (3 ≤ pt.1.length)) child
      = gcItems nodes child := by
  unfold gcItems
  rw [filter_filter_eq]
  intro x hx
  rw [Bool.and_eq_true] at hx
  have := hx.1
  simp only [beq_iff_eq] at this
  simp [this]

/-- Nodes with fewer than three segments do not affect a child's entry. -/
theorem childEntry_filter3 (nodes : NodesMap) (pt : List String × String) :
    childEntry (nodes.filter fun pt => decide (3 ≤ pt.1.length)) pt
      = childEntry nodes pt := by
  unfold childEntry
  rw [hasDeeper_filter3, gcItems_filter3]

/-- Nodes with fewer than three segments do not affect the defaulted
group index. -/
theorem groupIndexD_filter3 (nodes : NodesMap) (key : List String) :
    groupIndexD (nodes.filter fun pt => decide (3 ≤ pt.1.length)) key
      = groupIndexD nodes key := by
  unfold groupIndexD
  rw [groupIndex_filter3]

/-- Nodes with fewer than three segments do not affect a group's items. -/
theorem groupItems_filter3 (nodes : NodesMap) (key : List String) :
    groupItems (nodes.filter fun pt => decide (3 ≤ pt.1.length)) key
      = groupItems nodes key := by
  unfold groupItems
  rw [groupIndexD_filter3, childIndexMap_filter3,
    funext (childEntry_filter3 nodes)]

/-- Dropping the nodes with fewer than three segments leaves the built
structure unchanged. -/
theorem buildNav_filter3 (nodes : NodesMap) (seg : Bool) :
    buildNavStructureOnly (nodes.filter fun pt => decide (3 ≤ pt.1.length)) seg
      = buildNavStructureOnly nodes seg := by
  unfold buildNavStructureOnly
  rw [groupKeys_filter3]
  apply List.map_congr_left
  intro key hk
  dsimp only
  rw [groupItems_filter3, groupIndexD_filter3]

/-- C10 (confirmed).  Every display key placed in the per-package
structure is the dotted join of a three-segment group key, and accepted
entry points with fewer than three segments are silently omitted:
removing them from the node map changes nothing. -/
theorem c10_group_keys_three_segments (nodes : NodesMap) (seg : Bool) :
    (∀ kv ∈ buildNavStructureOnly nodes seg,
      ∃ key, key.length = 3 ∧ kv.1 = String.intercalate "." key)
  ∧ buildNavStructureOnly (nodes.filter fun pt => decide (3 ≤ pt.1.length)) seg
      = buildNavStructureOnly nodes seg := by
  constructor
  · intro kv hkv
    rcases List.mem_map.mp hkv with ⟨key, hkey, rfl⟩
    exact ⟨key, groupKeys_length nodes key hkey, rfl⟩
  · exact buildNav_filter3 nodes seg

/-- Witness for `c10_group_keys_three_segments`: a node map holding a
three-level package and a one-segment entry point. -/
theorem c10_group_keys_three_segments_witness :
    ("a.b.c", GroupValue.items [NavItem.leaf "c" "i.md"])
      ∈ buildNavStructureOnly [(["a", "b", "c"], "i.md"), (["x"], "s.md")] true
  ∧ (∃ key, key.length = 3
      ∧ ("a.b.c", GroupValue.items [NavItem.leaf "c" "i.md"]).1
          = String.intercalate "." key)
  ∧ buildNavStructureOnly
      (([(["a", "b", "c"], "i.md"), (["x"], "s.md")] : NodesMap).filter
        fun pt => decide (3 ≤ pt.1.length)) true
      = buildNavStructureOnly [(["a", "b", "c"], "i.md"), (["x"], "s.md")] true := by
  have hmem : ("a.b.c", GroupValue.items [NavItem.leaf "c" "i.md"])
      ∈ buildNavStructureOnly [(["a", "b", "c"], "i.md"), (["x"], "s.md")] true :=
    List.Mem.head _
  exact ⟨hmem,
    (c10_group_keys_three_segments [(["a", "b", "c"], "i.md"), (["x"], "s.md")] true).1
      _ hmem,
    (c10_group_keys_three_segments [(["a", "b", "c"], "i.md"), (["x"], "s.md")] true).2⟩

/-- Every path produced under a rendered child entry (a direct child
row, a nested child's own index, or a grandchild row) is the path of a
node with exactly four or five segments. -/
theorem childEntry_path_cases (nodes : NodesMap) (key : List String)
    (c : List String × String) (path : String)
    (hc : c ∈ sortByParts (childIndexMap nodes key))
    (hpi : path ∈ itemPaths (childEntry nodes c)) :
    ∃ pt, pt ∈ nodes ∧ (pt.1.length = 4 ∨ pt.1.length = 5) ∧ pt.2 = path := by
  have hc' := (mem_pySorted _ _ _).mp hc
  rw [childIndexMap, List.mem_filter, Bool.and_eq_true] at hc'
  obtain ⟨hcn, hc4, _⟩ := hc'
  have hc4' : c.1.length = 4 := by simpa using hc4
  unfold childEntry at hpi
  split at hpi
  case isTrue =>
    rw [itemPaths, forestPaths_forestOfList] at hpi
    rcases List.mem_flatMap.mp hpi with ⟨item, hitem, hpi2⟩
    rcases List.mem_cons.mp hitem with rfl | hitem'
    · rcases List.mem_singleton.mp hpi2 with rfl
      exact ⟨c, hcn, Or.inl hc4', rfl⟩
    · rw [gcItems] at hitem'
      rcases List.mem_map.mp hitem' with ⟨g, hg, rfl⟩
      rcases List.mem_singleton.mp hpi2 with rfl
      have hg' := (mem_pySorted _ _ _).mp hg
      rw [List.mem_filter, Bool.and_eq_true] at hg'
      obtain ⟨hgn, hg5, _⟩ := hg'
      exact ⟨g, hgn, Or.inr (by simpa using hg5), rfl⟩
  case isFalse =>
    rcases List.mem_singleton.mp hpi with rfl
    exact ⟨c, hcn, Or.inl hc4', rfl⟩

/-- C7 (counterexample).  An entry point more than two segments beyond
the group key is not always omitted from the rendered tree: with the
single node `a.b.c.d.e.f` (three segments beyond its group key `a.b.c`)
the group is created with that node's path as its designated index, so
the path appears in the rendered tree. -/
theorem c7_two_level_cap_counterexample :
    buildNavStructureOnly [(["a", "b", "c", "d", "e", "f"], "deep.md")] true
      = [("a.b.c", GroupValue.items [NavItem.leaf "c" "deep.md"])]
  ∧ targetPaths (buildNavStructureOnly [(["a", "b", "c", "d", "e", "f"], "deep.md")] true)
      = ["deep.md"]
  ∧ (["a", "b", "c", "d", "e", "f"] : List String).length = 3 + 3 :=
  ⟨rfl, rfl, rfl⟩

/-- C7 (amended).  Nesting is capped at two levels beyond the group key:
every target path in the rendered structure is either a group's
designated index path or the path of an entry exactly one or two
segments beyond the group key.  Entries deeper than that never produce
child or grandchild rows of their own — their paths can surface only by
serving as a group's designated index (as in the counterexample, when no
shallower entry shares the group prefix). -/
theorem c7_two_level_cap_amended (nodes : NodesMap) (seg : Bool) (path : String)
    (hp : path ∈ targetPaths (buildNavStructureOnly nodes seg)) :
    (∃ key, key ∈ groupKeys nodes ∧ groupIndexD nodes key = path)
  ∨ (∃ pt, pt ∈ nodes ∧ (pt.1.length = 4 ∨ pt.1.length = 5) ∧ pt.2 = path) := by
  unfold targetPaths buildNavStructureOnly at hp
  rcases List.mem_flatMap.mp hp with ⟨kv, hkv, hpath⟩
  rcases List.mem_map.mp hkv with ⟨key, hkey, rfl⟩
  dsimp only at hpath
  split at hpath
  case isTrue =>
    split at hpath
    case isTrue =>
      -- single-entry group kept as items: only the index row exists
      rcases List.mem_flatMap.mp hpath with ⟨item, hitem, hpi⟩
      rcases List.mem_cons.mp hitem with rfl | hitem'
      · rcases List.mem_singleton.mp hpi with rfl
        exact Or.inl ⟨key, hkey, rfl⟩
      · rcases List.mem_map.mp hitem' with ⟨c, hc, rfl⟩
        exact Or.inr (childEntry_path_cases nodes key c path hc hpi)
    case isFalse =>
      -- collapsed single entry: the bare index path
      rcases List.mem_singleton.mp hpath with rfl
      exact Or.inl ⟨key, hkey, rfl⟩
  case isFalse =>
    rcases List.mem_flatMap.mp hpath with ⟨item, hitem, hpi⟩
    rcases List.mem_cons.mp hitem with rfl | hitem'
    · rcases List.mem_singleton.mp hpi with rfl
      exact Or.inl ⟨key, hkey, rfl⟩
    · rcases List.mem_map.mp hitem' with ⟨c, hc, rfl⟩
      exact Or.inr (childEntry_path_cases nodes key c path hc hpi)

/-- Witness for `c7_two_level_cap_amended`. -/
theorem c7_two_level_cap_amended_witness :
    "i.md" ∈ targetPaths (buildNavStructureOnly [(["a", "b", "c"], "i.md")] true)
  ∧ ((∃ key, key ∈ groupKeys [(["a", "b", "c"], "i.md")]
        ∧ groupIndexD [(["a", "b", "c"], "i.md")] key = "i.md")
     ∨ (∃ pt, pt ∈ ([(["a", "b", "c"], "i.md")] : NodesMap)
        ∧ (pt.1.length = 4 ∨ pt.1.length = 5) ∧ pt.2 = "i.md")) :=
  ⟨by decide,
    c7_two_level_cap_amended [(["a", "b", "c"], "i.md")] true "i.md" (by decide)⟩

end GenMkdocs
